import Mathlib

/-!
Verification of the key/tempo estimation core of `get_features.py`.

The source is a single Python class `Song` built on numpy/scipy/librosa.
Audio decoding, chroma extraction, onset detection and beat tracking are
external collaborators; their outputs (a chromagram, a list of tempo
readings, a pitch-class distribution) are parameters of the Lean
embeddings below.  Real-number scalars model Python floats; lists model
numpy 1-D arrays.
-/

noncomputable section

namespace GetFeatures

/-- Errors that the Python runtime can raise while running
`Song.get_estimated_song_key`, plus the `invalidInputError` constructor,
which models the spec's `InvalidInputError` taxonomy entry.  The source
code never defines or raises an `InvalidInputError`; the constructor is
present only so that statements about that taxonomy can be written. -/
inductive PyErr where
  | valueError
  | indexError
  | invalidInputError
  deriving DecidableEq, Repr

/-- `np.mean` / the mean used inside `scipy.stats.zscore`: sum divided by
length. -/
def mean (l : List ℝ) : ℝ := l.sum / l.length

/-- Population variance, as used by `numpy.std` with the default
`ddof=0` (which `scipy.stats.zscore` calls): mean of squared deviations
from the mean. -/
def popVariance (l : List ℝ) : ℝ :=
  ((l.map (fun x => (x - mean l) ^ 2)).sum) / l.length

/-- Population standard deviation: square root of the population
variance (`numpy.std`, `ddof=0`). -/
def popStd (l : List ℝ) : ℝ := Real.sqrt (popVariance l)

/-- `Song._return_zscore` = `scipy.stats.zscore(array)`: subtract the
mean and divide by the population standard deviation, elementwise.
Faithful to the source whenever the standard deviation is nonzero; at a
zero standard deviation the floating-point source produces NaN entries
(see `zscoreIEEE`), while real-number division by zero in Lean yields 0. -/
def zscore (l : List ℝ) : List ℝ :=
  l.map (fun x => (x - mean l) / popStd l)

/-- `scipy.stats.zscore` under IEEE floating-point semantics: when the
population standard deviation is zero, every entry is the 0/0 division,
which is NaN (scipy emits a RuntimeWarning, which line 8 of the source
suppresses globally).  `none` models NaN; `some x` models the ordinary
finite result. -/
def zscoreIEEE (l : List ℝ) : List (Option ℝ) :=
  l.map (fun x =>
    if popStd l = 0 then none else some ((x - mean l) / popStd l))

/-- `Song.MAJOR_PROFILE` (Krumhansl-Schmuckler major coefficients). -/
def MAJOR_PROFILE : List ℝ :=
  [6.35, 2.23, 3.48, 2.33, 4.38, 4.09, 2.52, 5.19, 2.39, 3.66, 2.29, 2.88]

/-- `Song.MINOR_PROFILE` (Krumhansl-Schmuckler minor coefficients). -/
def MINOR_PROFILE : List ℝ :=
  [6.33, 2.68, 3.52, 5.38, 2.60, 3.53, 2.54, 4.75, 3.98, 2.69, 3.34, 3.17]

/-- The sharpened spelling of a natural note name. -/
def sharp (s : String) : String := s ++ "#"

/-- `Song.NOTE_NAMES`: the twelve chromatic pitch-class names starting
at C, sharps written with a trailing `#`. -/
def NOTE_NAMES : List String :=
  ["C", sharp "C", "D", sharp "D", "E", "F", sharp "F", "G", sharp "G",
    "A", sharp "A", "B"]

/-- `scipy.linalg.circulant(c)` as an entry function: the entry in row
`i`, column `j` is `c[(i - j) mod n]` where `n = len(c)`.  For
`j < n` the Nat expression `(i + n - j) % n` equals `(i - j) mod n`. -/
def circulant (c : List ℝ) (i j : ℕ) : ℝ :=
  c.getD ((i + c.length - j) % c.length) 0

/-- Lines 76-81 of the source: z-score the tone profile, then form the
circulant matrix of the standardized profile. -/
def build_rotated_template (p : List ℝ) : ℕ → ℕ → ℝ :=
  circulant (zscore p)

/-- `np.dot` on two equal-length 1-D arrays: sum of elementwise
products.  (On mismatched lengths numpy raises a ValueError; that shape
requirement is enforced at the call site in `get_estimated_song_key`.) -/
def dot (a b : List ℝ) : ℝ := ((a.zip b).map (fun p => p.1 * p.2)).sum

/-- Loop model of `np.argmax`: `bi` is the index of the best value seen
so far, `bv` that value, `i` the index of the head of the remaining
list.  The best value is replaced only on a strictly greater element, so
the first occurrence of the maximum wins. -/
def argmaxAux : List ℝ → ℕ → ℝ → ℕ → ℕ
  | [], bi, _, _ => bi
  | x :: xs, bi, bv, i =>
      if bv < x then argmaxAux xs i x (i + 1) else argmaxAux xs bi bv (i + 1)

/-- `np.argmax` of a 1-D array: index of the first occurrence of the
maximum value (0 on the empty array, which the source never passes). -/
def argmax : List ℝ → ℕ
  | [] => 0
  | x :: xs => argmaxAux xs 0 x 1

/-- Lines 80-85 of the source, for one profile: the scores vector
`circulant(zscore(profile)).T.dot(X)`; entry `j` is the dot product of
column `j` of the circulant matrix with the standardized chroma `X`. -/
def keyScores (profile X : List ℝ) : List ℝ :=
  (List.range 12).map
    (fun j => dot ((List.range 12).map (fun i => circulant (zscore profile) i j)) X)

/-- `major_X` of line 84, as a function of the raw distribution. -/
def majorScoresOf (dist : List ℝ) : List ℝ := keyScores MAJOR_PROFILE (zscore dist)

/-- `minor_X` of line 85, as a function of the raw distribution. -/
def minorScoresOf (dist : List ℝ) : List ℝ := keyScores MINOR_PROFILE (zscore dist)

/-- `major_winner = np.argmax(major_X)` (line 88). -/
def majorWinnerOf (dist : List ℝ) : ℕ := argmax (majorScoresOf dist)

/-- `minor_winner = np.argmax(minor_X)` (line 89). -/
def minorWinnerOf (dist : List ℝ) : ℕ := argmax (minorScoresOf dist)

/-- `Song.get_estimated_song_key` (lines 66-96), as a function of the
pitch-class distribution computed on line 73.  The scoring step
`major_profile_rotated.T.dot(X)` requires `X` to have length 12; on any
other length numpy raises a shape-mismatch ValueError, modeled by the
outer length test.  A Python list lookup `NOTE_NAMES[w]` out of range
would raise an IndexError, modeled by the match on the optional
lookups. -/
def get_estimated_song_key (dist : List ℝ) : Except PyErr String :=
  if dist.length = 12 then
    let mScores := majorScoresOf dist
    let nScores := minorScoresOf dist
    let mw := argmax mScores
    let nw := argmax nScores
    match NOTE_NAMES[mw]?, NOTE_NAMES[nw]? with
    | some a, some b =>
        if mScores.getD mw 0 > nScores.getD nw 0 then Except.ok (a ++ " major")
        else if mScores.getD mw 0 < nScores.getD nw 0 then Except.ok (b ++ " minor")
        else Except.ok (a ++ " major or " ++ b ++ " minor")
    | _, _ => Except.error PyErr.indexError
  else Except.error PyErr.valueError

/-- `Song.get_pitch_class_distribution` (lines 47-54), as a function of
the chromagram returned by the librosa collaborator (a list of 12
pitch-class rows, each of length `T`): `np.sum(chromagram, axis=1)` is
the list of row sums. -/
def get_pitch_class_distribution (chromagram : List (List ℝ)) : List ℝ :=
  chromagram.map List.sum

/-- `Song.get_tempo` (lines 56-61), as a function of the tempo readings
returned by the librosa beat-tracking collaborator:
`np.mean(librosa.beat.tempo(...))`. -/
def get_tempo (tempoReadings : List ℝ) : ℝ := mean tempoReadings

/-- The deviations-from-the-mean vector; `zscore l` is `centered l`
scaled by the inverse standard deviation. -/
def centered (l : List ℝ) : List ℝ := l.map (fun x => x - mean l)

/-- Column `j` of the circulant matrix of a length-12 list, as a list
over row indices `0..11`. -/
def colAt (c : List ℝ) (j : ℕ) : List ℝ :=
  (List.range 12).map (fun i => c.getD ((i + 12 - j) % 12) 0)

/-- Index `k` attains the maximum of the list (getD-indexed). -/
def attainsMax (l : List ℝ) (k : ℕ) : Prop :=
  k < l.length ∧ ∀ m, m < l.length → l.getD m 0 ≤ l.getD k 0

/-- Index `k` is the first occurrence of the maximum of the list. -/
def isFirstMax (l : List ℝ) (k : ℕ) : Prop :=
  attainsMax l k ∧ ∀ m, attainsMax l m → k ≤ m

/-- The 6-periodic synthetic distribution used as a concrete tie input:
alternating ones and zeros. -/
def alt01 : List ℝ := [1, 0, 1, 0, 1, 0, 1, 0, 1, 0, 1, 0]

/-! ## Basic lemmas -/

theorem zscore_length (l : List ℝ) : (zscore l).length = l.length := by
  simp [zscore]

theorem popVariance_const3 : popVariance [(5 : ℝ), 5, 5] = 0 := by
  simp [popVariance, mean]
  norm_num

theorem popStd_const3 : popStd [(5 : ℝ), 5, 5] = 0 := by
  rw [popStd, popVariance_const3, Real.sqrt_zero]

theorem sum_map_mul_left_list (c : ℝ) (l : List ℝ) :
    (l.map (fun x => c * x)).sum = c * l.sum := by
  induction l with
  | nil => simp
  | cons y ys ih => simp [ih, mul_add]

theorem sum_map_sub_const (l : List ℝ) (c : ℝ) :
    (l.map (fun x => x - c)).sum = l.sum - l.length * c := by
  induction l with
  | nil => simp
  | cons y ys ih => simp [ih]; ring

theorem sum_map_div_const (l : List ℝ) (c : ℝ) :
    (l.map (fun x => x / c)).sum = l.sum / c := by
  induction l with
  | nil => simp
  | cons y ys ih => simp [ih, add_div]

theorem popVariance_nonneg (l : List ℝ) : 0 ≤ popVariance l := by
  unfold popVariance
  apply div_nonneg _ (Nat.cast_nonneg _)
  apply List.sum_nonneg
  intro x hx
  obtain ⟨y, _, rfl⟩ := List.mem_map.mp hx
  positivity

/-! ## Claim theorems (first batch) -/

/-- Claim C9: `get_tempo` returns the arithmetic mean of the tempo
readings returned by the beat-tracking collaborator; on
`[120, 122, 121]` it is exactly `121`, on the single reading `[95.5]`
it is exactly `95.5`, and on any single reading the mean degenerates to
the identity. -/
theorem get_tempo_is_mean :
    get_tempo [120, 122, 121] = 121 ∧ get_tempo [95.5] = 95.5 ∧
    ∀ x : ℝ, get_tempo [x] = x := by
  refine ⟨?_, ?_, ?_⟩
  · simp [get_tempo, mean]; norm_num
  · simp [get_tempo, mean]
  · intro x; simp [get_tempo, mean]

/-- Claim C7: `get_pitch_class_distribution` is the chromagram summed
across the time axis — one sum per pitch-class row, hence a vector with
as many entries as the chromagram has rows (12 for the librosa
collaborator) — and it applies no normalization: scaling the chromagram
by any factor scales the output by the same factor. -/
theorem get_pitch_class_distribution_spec (c : ℝ) (ch : List (List ℝ)) :
    get_pitch_class_distribution ch = ch.map List.sum ∧
    (get_pitch_class_distribution ch).length = ch.length ∧
    get_pitch_class_distribution (ch.map (fun row => row.map (fun x => c * x))) =
      (get_pitch_class_distribution ch).map (fun s => c * s) := by
  refine ⟨rfl, by simp [get_pitch_class_distribution], ?_⟩
  simp [get_pitch_class_distribution, List.map_map, Function.comp,
    sum_map_mul_left_list]

/-- Claim C5, counterexample: on a distribution of length 10 the key
estimator fails with numpy's shape-mismatch ValueError, not with the
spec's `InvalidInputError` (which the source never defines or raises). -/
theorem key_len10_not_invalidInput :
    get_estimated_song_key [1, 2, 3, 4, 5, 6, 7, 8, 9, 10] =
      Except.error PyErr.valueError ∧
    Except.error PyErr.valueError ≠
      (Except.error PyErr.invalidInputError : Except PyErr String) := by
  constructor
  · simp [get_estimated_song_key]
  · simp

/-- Claim C5, amended: a distribution whose length differs from 12 makes
`get_estimated_song_key` fail, but with the shape-mismatch ValueError of
the numpy dot product; the source contains no `InvalidInputError` and no
explicit length validation, and `get_pitch_class_distribution` takes no
vector argument at all. -/
theorem key_non12_valueError (dist : List ℝ) (h : dist.length ≠ 12) :
    get_estimated_song_key dist = Except.error PyErr.valueError := by
  simp [get_estimated_song_key, h]

/-- Witness for `key_non12_valueError` at the length-1 input `[0]`. -/
theorem key_non12_valueError_witness :
    ([(0 : ℝ)].length ≠ 12) ∧
    get_estimated_song_key [0] = Except.error PyErr.valueError :=
  ⟨by simp, key_non12_valueError [0] (by simp)⟩

/-- Claim C6, counterexample: on the constant vector `[5, 5, 5]` the
z-score of the source divides by a zero standard deviation and returns a
vector of NaNs (`none`); it neither raises an error nor returns the
all-zero vector. -/
theorem zscore_const_is_nan :
    zscoreIEEE [5, 5, 5] = [none, none, none] ∧
    ([none, none, none] : List (Option ℝ)) ≠ [some 0, some 0, some 0] := by
  constructor
  · simp [zscoreIEEE, popStd_const3]
  · simp

/-- Claim C6, amended: `_return_zscore` performs no zero-variance check;
on a zero-variance vector every entry of `scipy.stats.zscore`'s result
is the NaN produced by the 0/0 division (the accompanying RuntimeWarning
is suppressed by line 8 of the source), so the division-by-zero artifact
propagates to the caller. -/
theorem zscoreIEEE_zeroVariance_nan (l : List ℝ) (h : popVariance l = 0) :
    ∀ k, k < l.length → (zscoreIEEE l)[k]? = some none := by
  have hs : popStd l = 0 := by rw [popStd, h, Real.sqrt_zero]
  intro k hk
  have hk' : l[k]? = some (l.get ⟨k, hk⟩) := by
    simp [List.getElem?_eq_getElem hk]
  simp [zscoreIEEE, hs, List.getElem?_map, hk', List.getElem?_replicate, hk]

/-- Witness for `zscoreIEEE_zeroVariance_nan` at `[5, 5, 5]`, entry 1. -/
theorem zscoreIEEE_zeroVariance_nan_witness :
    popVariance [(5 : ℝ), 5, 5] = 0 ∧ 1 < ([(5 : ℝ), 5, 5]).length ∧
    (zscoreIEEE [5, 5, 5])[1]? = some none :=
  ⟨popVariance_const3, by simp,
    zscoreIEEE_zeroVariance_nan [5, 5, 5] popVariance_const3 1 (by simp)⟩

/-- Claim C3: `build_rotated_template` z-scores the profile and builds
the circulant matrix of the result: for a 12-element profile the entry
in row `i`, column `j` is entry `(i - j) mod 12` of the standardized
profile, column 0 is the standardized profile itself, and column `j` is
column 0 rotated down by `j` positions with wraparound. -/
theorem build_rotated_template_spec (p : List ℝ) (hp : p.length = 12)
    (i j : ℕ) (hi : i < 12) (hj : j < 12) :
    build_rotated_template p i j = (zscore p).getD ((i + 12 - j) % 12) 0 ∧
    build_rotated_template p i 0 = (zscore p).getD i 0 ∧
    build_rotated_template p i j =
      build_rotated_template p ((i + 12 - j) % 12) 0 := by
  have hlen : (zscore p).length = 12 := by rw [zscore_length, hp]
  unfold build_rotated_template circulant
  rw [hlen]
  refine ⟨rfl, ?_, ?_⟩
  · congr 1; omega
  · congr 1; omega

/-- Witness for `build_rotated_template_spec` on `MINOR_PROFILE` at row
5, column 3. -/
theorem build_rotated_template_spec_witness :
    MINOR_PROFILE.length = 12 ∧ 5 < 12 ∧ 3 < 12 ∧
    (build_rotated_template MINOR_PROFILE 5 3 =
        (zscore MINOR_PROFILE).getD ((5 + 12 - 3) % 12) 0 ∧
      build_rotated_template MINOR_PROFILE 5 0 =
        (zscore MINOR_PROFILE).getD 5 0 ∧
      build_rotated_template MINOR_PROFILE 5 3 =
        build_rotated_template MINOR_PROFILE ((5 + 12 - 3) % 12) 0) :=
  ⟨by simp [MINOR_PROFILE], by norm_num, by norm_num,
    build_rotated_template_spec MINOR_PROFILE (by simp [MINOR_PROFILE]) 5 3
      (by norm_num) (by norm_num)⟩

/-- Claim C4: on a non-empty vector of nonzero population variance,
`_return_zscore` subtracts the mean from each element and divides by the
population standard deviation, and the standardized vector has mean 0
and population standard deviation 1. -/
theorem zscore_spec (l : List ℝ) (hne : l ≠ []) (hv : popVariance l ≠ 0) :
    zscore l = l.map (fun x => (x - mean l) / popStd l) ∧
    mean (zscore l) = 0 ∧ popStd (zscore l) = 1 := by
  have hn0 : l.length ≠ 0 := by
    simpa [List.length_eq_zero] using hne
  have hn : (0 : ℝ) < (l.length : ℝ) := by
    exact_mod_cast Nat.pos_of_ne_zero hn0
  have hvnn := popVariance_nonneg l
  have hvpos : 0 < popVariance l := lt_of_le_of_ne hvnn (Ne.symm hv)
  have hσ2 : popStd l ^ 2 = popVariance l := Real.sq_sqrt hvnn
  have hsum : (l.map (fun x => (x - mean l) / popStd l)).sum = 0 := by
    have h1 : l.map (fun x => (x - mean l) / popStd l) =
        (l.map (fun x => x - mean l)).map (fun y => y / popStd l) := by
      rw [List.map_map]; rfl
    rw [h1, sum_map_div_const, sum_map_sub_const, mean]
    field_simp
  have hmean : mean (zscore l) = 0 := by
    rw [mean, zscore, hsum, zero_div]
  refine ⟨rfl, hmean, ?_⟩
  have hS2 : (l.map (fun x => (x - mean l) ^ 2)).sum =
      popVariance l * l.length := by
    rw [popVariance]; field_simp
  have h2 : (zscore l).map (fun x => (x - mean (zscore l)) ^ 2) =
      (l.map (fun x => (x - mean l) ^ 2)).map (fun y => y / popStd l ^ 2) := by
    rw [hmean, zscore, List.map_map, List.map_map]
    congr 1
    funext x
    simp [div_pow]
  have hvar1 : popVariance (zscore l) = 1 := by
    rw [popVariance, h2, sum_map_div_const, hS2, zscore_length, hσ2]
    field_simp
  rw [popStd, hvar1, Real.sqrt_one]

/-- Witness for `zscore_spec` at the vector `[0, 2]` (mean 1, population
variance 1). -/
theorem zscore_spec_witness :
    ([(0 : ℝ), 2] ≠ []) ∧ popVariance [(0 : ℝ), 2] ≠ 0 ∧
    (zscore [(0 : ℝ), 2] =
        [(0 : ℝ), 2].map (fun x => (x - mean [(0 : ℝ), 2]) / popStd [(0 : ℝ), 2]) ∧
      mean (zscore [(0 : ℝ), 2]) = 0 ∧ popStd (zscore [(0 : ℝ), 2]) = 1) := by
  have hv : popVariance [(0 : ℝ), 2] ≠ 0 := by
    norm_num [popVariance, mean]
  exact ⟨by simp, hv, zscore_spec [(0 : ℝ), 2] (by simp) hv⟩

/-! ## The argmax loop: first occurrence of the maximum -/

theorem argmaxAux_spec (xs : List ℝ) : ∀ (bi i : ℕ) (bv : ℝ),
    (argmaxAux xs bi bv i = bi ∧ ∀ k, k < xs.length → xs.getD k 0 ≤ bv) ∨
    (∃ k, k < xs.length ∧ argmaxAux xs bi bv i = i + k ∧ bv < xs.getD k 0 ∧
      (∀ m, m < k → xs.getD m 0 < xs.getD k 0) ∧
      (∀ m, k < m → m < xs.length → xs.getD m 0 ≤ xs.getD k 0)) := by
  induction xs with
  | nil =>
    intro bi i bv
    left
    exact ⟨rfl, by simp⟩
  | cons x xs ih =>
    intro bi i bv
    by_cases h : bv < x
    · rw [argmaxAux, if_pos h]
      rcases ih i (i + 1) x with ⟨heq, hall⟩ | ⟨k, hk, heq, hlt, hbef, haft⟩
      · right
        refine ⟨0, by simp, by omega, by simpa using h, by simp, ?_⟩
        intro m hm0 hmlen
        cases m with
        | zero => omega
        | succ m' =>
          simp only [List.getD_cons_succ, List.getD_cons_zero]
          exact hall m' (by simpa using hmlen)
      · right
        refine ⟨k + 1, by simpa using hk, by omega, ?_, ?_, ?_⟩
        · simpa using lt_trans h hlt
        · intro m hm
          cases m with
          | zero => simpa using hlt
          | succ m' =>
            simp only [List.getD_cons_succ]
            exact hbef m' (by omega)
        · intro m hm hmlen
          cases m with
          | zero => omega
          | succ m' =>
            simp only [List.getD_cons_succ]
            exact haft m' (by omega) (by simpa using hmlen)
    · rw [argmaxAux, if_neg h]
      rcases ih bi (i + 1) bv with ⟨heq, hall⟩ | ⟨k, hk, heq, hlt, hbef, haft⟩
      · left
        refine ⟨heq, ?_⟩
        intro k hk
        cases k with
        | zero => simpa using le_of_not_lt h
        | succ k' =>
          simp only [List.getD_cons_succ]
          exact hall k' (by simpa using hk)
      · right
        refine ⟨k + 1, by simpa using hk, by omega, ?_, ?_, ?_⟩
        · simpa using hlt
        · intro m hm
          cases m with
          | zero =>
            simp only [List.getD_cons_succ, List.getD_cons_zero]
            exact lt_of_le_of_lt (le_of_not_lt h) hlt
          | succ m' =>
            simp only [List.getD_cons_succ]
            exact hbef m' (by omega)
        · intro m hm hmlen
          cases m with
          | zero => omega
          | succ m' =>
            simp only [List.getD_cons_succ]
            exact haft m' (by omega) (by simpa using hmlen)

/-- `np.argmax` returns the index of the first occurrence of the
maximum of a nonempty array. -/
theorem argmax_isFirstMax (l : List ℝ) (hne : l ≠ []) :
    isFirstMax l (argmax l) := by
  obtain ⟨x, xs, rfl⟩ := List.exists_cons_of_ne_nil hne
  show isFirstMax (x :: xs) (argmaxAux xs 0 x 1)
  rcases argmaxAux_spec xs 0 1 x with ⟨heq, hall⟩ | ⟨k, hk, heq, hlt, hbef, haft⟩
  · rw [heq]
    constructor
    · refine ⟨by simp, ?_⟩
      intro m hm
      cases m with
      | zero => exact le_refl _
      | succ m' =>
        simp only [List.getD_cons_succ, List.getD_cons_zero]
        exact hall m' (by simpa using hm)
    · intro m _
      omega
  · rw [heq]
    have hgd : (x :: xs).getD (1 + k) 0 = xs.getD k 0 := by
      have : 1 + k = k + 1 := by omega
      rw [this, List.getD_cons_succ]
    constructor
    · refine ⟨by simp only [List.length_cons]; omega, ?_⟩
      intro m hm
      rw [hgd]
      cases m with
      | zero => simpa using le_of_lt hlt
      | succ m' =>
        simp only [List.getD_cons_succ]
        rcases lt_trichotomy m' k with hc | hc | hc
        · exact le_of_lt (hbef m' hc)
        · rw [hc]
        · exact haft m' hc (by simpa using hm)
    · intro m hmax
      by_contra hcon
      push_neg at hcon
      obtain ⟨hmlen, hmax'⟩ := hmax
      have hle : (x :: xs).getD (1 + k) 0 ≤ (x :: xs).getD m 0 :=
        hmax' (1 + k) (by simp only [List.length_cons]; omega)
      rw [hgd] at hle
      cases m with
      | zero =>
        simp only [List.getD_cons_zero] at hle
        exact absurd hle (not_le.mpr hlt)
      | succ m' =>
        simp only [List.getD_cons_succ] at hle
        exact absurd hle (not_le.mpr (hbef m' (by omega)))

/-- The score vectors built on lines 84-85 always have 12 entries. -/
theorem keyScores_length (p X : List ℝ) : (keyScores p X).length = 12 := by
  simp [keyScores]

theorem keyScores_ne_nil (p X : List ℝ) : keyScores p X ≠ [] := by
  intro h
  have := congrArg List.length h
  rw [keyScores_length] at this
  simp at this

/-! ## Evaluating the correlation scores

Every score is a dot product of two z-scored vectors, hence a rational
dot product of centered vectors divided by the (positive) product of the
two standard deviations; comparisons of scores reduce to comparisons of
rational numbers. -/

theorem getD_map_div (l : List ℝ) (s : ℝ) (k : ℕ) :
    (l.map (fun x => x / s)).getD k 0 = l.getD k 0 / s := by
  rw [List.getD_eq_getElem?_getD, List.getD_eq_getElem?_getD, List.getElem?_map]
  cases h : l[k]? with
  | none => simp
  | some x => simp

theorem zscore_eq_centered (l : List ℝ) :
    zscore l = (centered l).map (fun y => y / popStd l) := by
  rw [zscore, centered, List.map_map]
  rfl

theorem circCol_eq (p : List ℝ) (hp : p.length = 12) (j : ℕ) :
    (List.range 12).map (fun i => circulant (zscore p) i j) = colAt (zscore p) j := by
  simp only [circulant, colAt, zscore_length, hp]

theorem colAt_map_div (c : List ℝ) (s : ℝ) (j : ℕ) :
    colAt (c.map (fun x => x / s)) j = (colAt c j).map (fun y => y / s) := by
  simp only [colAt, List.map_map]
  congr 1
  funext i
  exact getD_map_div c s _

theorem dot_cons (x y : ℝ) (xs ys : List ℝ) :
    dot (x :: xs) (y :: ys) = x * y + dot xs ys := by
  simp [dot]

theorem dot_map_div (a : List ℝ) (s t : ℝ) :
    ∀ b : List ℝ,
      dot (a.map (fun x => x / s)) (b.map (fun y => y / t)) = dot a b / (s * t) := by
  induction a with
  | nil => intro b; simp [dot]
  | cons x xs ih =>
    intro b
    cases b with
    | nil => simp [dot]
    | cons y ys =>
      simp only [List.map_cons, dot_cons, ih ys]
      rw [div_mul_div_comm, add_div]

theorem getD_range_map (f : ℕ → ℝ) (m : ℕ) (hm : m < 12) :
    ((List.range 12).map f).getD m 0 = f m := by
  rw [List.getD_eq_getElem?_getD, List.getElem?_map, List.getElem?_range hm]
  rfl

/-- Score `m` of `circulant(zscore(p)).T.dot(zscore(d))` is the rational
dot product of the rotated centered profile with the centered
distribution, divided by the product of the standard deviations. -/
theorem keyScores_zscore_getD (p d : List ℝ) (hp : p.length = 12)
    (m : ℕ) (hm : m < 12) :
    (keyScores p (zscore d)).getD m 0 =
      dot (colAt (centered p) m) (centered d) / (popStd p * popStd d) := by
  unfold keyScores
  rw [getD_range_map _ m hm, circCol_eq p hp m, zscore_eq_centered p,
    zscore_eq_centered d, colAt_map_div, dot_map_div]

/-! ## Numeric facts about the profiles and the synthetic tie input -/

theorem mean_MAJOR : mean MAJOR_PROFILE = 3.4825 := by
  norm_num [mean, MAJOR_PROFILE]

theorem centered_MAJOR :
    centered MAJOR_PROFILE =
      [2.8675, -1.2525, -0.0025, -1.1525, 0.8975, 0.6075, -0.9625, 1.7075,
        -1.0925, 0.1775, -1.1925, -0.6025] := by
  unfold centered
  rw [mean_MAJOR]
  norm_num [MAJOR_PROFILE]

theorem mean_MINOR : mean MINOR_PROFILE = 4451 / 1200 := by
  norm_num [mean, MINOR_PROFILE]

theorem centered_MINOR :
    centered MINOR_PROFILE =
      [3145 / 1200, -1235 / 1200, -227 / 1200, 2005 / 1200, -1331 / 1200,
        -215 / 1200, -1403 / 1200, 1249 / 1200, 325 / 1200, -1223 / 1200,
        -443 / 1200, -647 / 1200] := by
  unfold centered
  rw [mean_MINOR]
  norm_num [MINOR_PROFILE]

theorem mean_alt01 : mean alt01 = 1 / 2 := by
  norm_num [mean, alt01]

theorem centered_alt01 :
    centered alt01 =
      [1 / 2, -1 / 2, 1 / 2, -1 / 2, 1 / 2, -1 / 2, 1 / 2, -1 / 2, 1 / 2,
        -1 / 2, 1 / 2, -1 / 2] := by
  unfold centered
  rw [mean_alt01]
  norm_num [alt01]

theorem popVariance_MAJOR_pos : 0 < popVariance MAJOR_PROFILE := by
  unfold popVariance
  rw [mean_MAJOR]
  norm_num [MAJOR_PROFILE]

theorem popVariance_MINOR_pos : 0 < popVariance MINOR_PROFILE := by
  unfold popVariance
  rw [mean_MINOR]
  norm_num [MINOR_PROFILE]

theorem popStd_MAJOR_pos : 0 < popStd MAJOR_PROFILE :=
  Real.sqrt_pos.mpr popVariance_MAJOR_pos

theorem popStd_MINOR_pos : 0 < popStd MINOR_PROFILE :=
  Real.sqrt_pos.mpr popVariance_MINOR_pos

theorem popVariance_alt01 : popVariance alt01 = 1 / 4 := by
  unfold popVariance
  rw [mean_alt01]
  norm_num [alt01]

theorem popStd_alt01 : popStd alt01 = 1 / 2 := by
  rw [popStd, popVariance_alt01, show (1 / 4 : ℝ) = (1 / 2) ^ 2 by norm_num,
    Real.sqrt_sq (by norm_num)]

theorem popStd_alt01_pos : 0 < popStd alt01 := by
  rw [popStd_alt01]
  norm_num

theorem MAJOR_len : MAJOR_PROFILE.length = 12 := by
  simp [MAJOR_PROFILE]

theorem MINOR_len : MINOR_PROFILE.length = 12 := by
  simp [MINOR_PROFILE]

theorem alt01_len : alt01.length = 12 := by
  simp [alt01]

set_option maxHeartbeats 3200000 in
/-- Claim C2: with the standardized `MAJOR_PROFILE` itself fed as the
standardized chroma vector `X`, the major template rooted at pitch class
0 scores strictly higher than every other major template, so
`major_winner = 0`. -/
theorem self_profile_major_winner_zero :
    (∀ j, j < 12 → j ≠ 0 →
      (keyScores MAJOR_PROFILE (zscore MAJOR_PROFILE)).getD j 0 <
        (keyScores MAJOR_PROFILE (zscore MAJOR_PROFILE)).getD 0 0) ∧
    majorWinnerOf MAJOR_PROFILE = 0 := by
  have hK : 0 < popStd MAJOR_PROFILE * popStd MAJOR_PROFILE :=
    mul_pos popStd_MAJOR_pos popStd_MAJOR_pos
  have hdot : ∀ j, j < 12 → j ≠ 0 →
      dot (colAt (centered MAJOR_PROFILE) j) (centered MAJOR_PROFILE) <
        dot (colAt (centered MAJOR_PROFILE) 0) (centered MAJOR_PROFILE) := by
    intro j hj hj0
    rw [centered_MAJOR]
    interval_cases j
    · omega
    all_goals norm_num [colAt, dot, List.range_succ]
  have hlt : ∀ j, j < 12 → j ≠ 0 →
      (keyScores MAJOR_PROFILE (zscore MAJOR_PROFILE)).getD j 0 <
        (keyScores MAJOR_PROFILE (zscore MAJOR_PROFILE)).getD 0 0 := by
    intro j hj hj0
    rw [keyScores_zscore_getD MAJOR_PROFILE MAJOR_PROFILE MAJOR_len j hj,
      keyScores_zscore_getD MAJOR_PROFILE MAJOR_PROFILE MAJOR_len 0 (by norm_num)]
    exact (div_lt_div_iff_of_pos_right hK).mpr (hdot j hj hj0)
  refine ⟨hlt, ?_⟩
  show argmax (keyScores MAJOR_PROFILE (zscore MAJOR_PROFILE)) = 0
  have hfm :=
    argmax_isFirstMax _ (keyScores_ne_nil MAJOR_PROFILE (zscore MAJOR_PROFILE))
  have h0 : attainsMax (keyScores MAJOR_PROFILE (zscore MAJOR_PROFILE)) 0 := by
    constructor
    · rw [keyScores_length]
      norm_num
    · intro m hm
      rw [keyScores_length] at hm
      by_cases hm0 : m = 0
      · rw [hm0]
      · exact le_of_lt (hlt m hm hm0)
  have := hfm.2 0 h0
  omega

/-- Witness for `self_profile_major_winner_zero` at the competitor
template `j = 5`. -/
theorem self_profile_major_winner_zero_witness :
    (5 < 12 ∧ (5 : ℕ) ≠ 0 ∧
      (keyScores MAJOR_PROFILE (zscore MAJOR_PROFILE)).getD 5 0 <
        (keyScores MAJOR_PROFILE (zscore MAJOR_PROFILE)).getD 0 0) ∧
    majorWinnerOf MAJOR_PROFILE = 0 :=
  ⟨⟨by norm_num, by norm_num,
      self_profile_major_winner_zero.1 5 (by norm_num) (by norm_num)⟩,
    self_profile_major_winner_zero.2⟩

/-! ## The synthetic tie input `alt01`

`alt01` is 2-periodic, so every score ties with the score six (indeed
two) semitones away; the even-rooted templates share the maximum and the
odd-rooted ones share the minimum, for both profiles. -/

theorem majorScoresOf_length (dist : List ℝ) : (majorScoresOf dist).length = 12 := by
  unfold majorScoresOf
  exact keyScores_length _ _

theorem minorScoresOf_length (dist : List ℝ) : (minorScoresOf dist).length = 12 := by
  unfold minorScoresOf
  exact keyScores_length _ _

theorem majorScoresOf_ne_nil (dist : List ℝ) : majorScoresOf dist ≠ [] := by
  unfold majorScoresOf
  exact keyScores_ne_nil _ _

theorem minorScoresOf_ne_nil (dist : List ℝ) : minorScoresOf dist ≠ [] := by
  unfold minorScoresOf
  exact keyScores_ne_nil _ _

theorem majorScores_alt01_getD (m : ℕ) (hm : m < 12) :
    (majorScoresOf alt01).getD m 0 =
      dot (colAt (centered MAJOR_PROFILE) m) (centered alt01) /
        (popStd MAJOR_PROFILE * popStd alt01) := by
  unfold majorScoresOf
  exact keyScores_zscore_getD MAJOR_PROFILE alt01 MAJOR_len m hm

theorem minorScores_alt01_getD (m : ℕ) (hm : m < 12) :
    (minorScoresOf alt01).getD m 0 =
      dot (colAt (centered MINOR_PROFILE) m) (centered alt01) /
        (popStd MINOR_PROFILE * popStd alt01) := by
  unfold minorScoresOf
  exact keyScores_zscore_getD MINOR_PROFILE alt01 MINOR_len m hm

set_option maxHeartbeats 3200000 in
theorem major_alt01_dot_le (m : ℕ) (hm : m < 12) :
    dot (colAt (centered MAJOR_PROFILE) m) (centered alt01) ≤
      dot (colAt (centered MAJOR_PROFILE) 0) (centered alt01) := by
  rw [centered_MAJOR, centered_alt01]
  interval_cases m <;> norm_num [colAt, dot, List.range_succ]

set_option maxHeartbeats 3200000 in
theorem minor_alt01_dot_le (m : ℕ) (hm : m < 12) :
    dot (colAt (centered MINOR_PROFILE) m) (centered alt01) ≤
      dot (colAt (centered MINOR_PROFILE) 0) (centered alt01) := by
  rw [centered_MINOR, centered_alt01]
  interval_cases m <;> norm_num [colAt, dot, List.range_succ]

set_option maxHeartbeats 800000 in
theorem major_alt01_dot_2_eq :
    dot (colAt (centered MAJOR_PROFILE) 2) (centered alt01) =
      dot (colAt (centered MAJOR_PROFILE) 0) (centered alt01) := by
  rw [centered_MAJOR, centered_alt01]
  norm_num [colAt, dot, List.range_succ]

set_option maxHeartbeats 800000 in
theorem minor_alt01_dot_2_eq :
    dot (colAt (centered MINOR_PROFILE) 2) (centered alt01) =
      dot (colAt (centered MINOR_PROFILE) 0) (centered alt01) := by
  rw [centered_MINOR, centered_alt01]
  norm_num [colAt, dot, List.range_succ]

theorem major_alt01_attains0 : attainsMax (majorScoresOf alt01) 0 := by
  have hK : 0 < popStd MAJOR_PROFILE * popStd alt01 :=
    mul_pos popStd_MAJOR_pos popStd_alt01_pos
  constructor
  · rw [majorScoresOf_length]
    norm_num
  · intro m hm
    rw [majorScoresOf_length] at hm
    rw [majorScores_alt01_getD m hm, majorScores_alt01_getD 0 (by norm_num)]
    exact (div_le_div_iff_of_pos_right hK).mpr (major_alt01_dot_le m hm)

theorem major_alt01_attains2 : attainsMax (majorScoresOf alt01) 2 := by
  have h2 : (majorScoresOf alt01).getD 2 0 = (majorScoresOf alt01).getD 0 0 := by
    rw [majorScores_alt01_getD 2 (by norm_num), majorScores_alt01_getD 0 (by norm_num),
      major_alt01_dot_2_eq]
  constructor
  · rw [majorScoresOf_length]
    norm_num
  · intro m hm
    rw [h2]
    exact major_alt01_attains0.2 m hm

theorem minor_alt01_attains0 : attainsMax (minorScoresOf alt01) 0 := by
  have hK : 0 < popStd MINOR_PROFILE * popStd alt01 :=
    mul_pos popStd_MINOR_pos popStd_alt01_pos
  constructor
  · rw [minorScoresOf_length]
    norm_num
  · intro m hm
    rw [minorScoresOf_length] at hm
    rw [minorScores_alt01_getD m hm, minorScores_alt01_getD 0 (by norm_num)]
    exact (div_le_div_iff_of_pos_right hK).mpr (minor_alt01_dot_le m hm)

theorem minor_alt01_attains2 : attainsMax (minorScoresOf alt01) 2 := by
  have h2 : (minorScoresOf alt01).getD 2 0 = (minorScoresOf alt01).getD 0 0 := by
    rw [minorScores_alt01_getD 2 (by norm_num), minorScores_alt01_getD 0 (by norm_num),
      minor_alt01_dot_2_eq]
  constructor
  · rw [minorScoresOf_length]
    norm_num
  · intro m hm
    rw [h2]
    exact minor_alt01_attains0.2 m hm

theorem majorWinner_alt01 : majorWinnerOf alt01 = 0 := by
  have hfm := argmax_isFirstMax (majorScoresOf alt01) (majorScoresOf_ne_nil alt01)
  have h := hfm.2 0 major_alt01_attains0
  unfold majorWinnerOf
  omega

theorem minorWinner_alt01 : minorWinnerOf alt01 = 0 := by
  have hfm := argmax_isFirstMax (minorScoresOf alt01) (minorScoresOf_ne_nil alt01)
  have h := hfm.2 0 minor_alt01_attains0
  unfold minorWinnerOf
  omega

/-- Claim C8: when two or more positions of the score vector attain its
maximum, `major_winner` (respectively `minor_winner`) is the index of
the first occurrence of that maximum. -/
theorem winners_first_occurrence (dist : List ℝ)
    (hM : ∃ i j, i ≠ j ∧ attainsMax (majorScoresOf dist) i ∧
      attainsMax (majorScoresOf dist) j)
    (hm : ∃ i j, i ≠ j ∧ attainsMax (minorScoresOf dist) i ∧
      attainsMax (minorScoresOf dist) j) :
    isFirstMax (majorScoresOf dist) (majorWinnerOf dist) ∧
    isFirstMax (minorScoresOf dist) (minorWinnerOf dist) :=
  ⟨argmax_isFirstMax _ (majorScoresOf_ne_nil dist),
    argmax_isFirstMax _ (minorScoresOf_ne_nil dist)⟩

/-- Witness for `winners_first_occurrence` at the 2-periodic input
`alt01`, whose major and minor score vectors each attain their maximum
at both index 0 and index 2. -/
theorem winners_first_occurrence_witness :
    (∃ i j, i ≠ j ∧ attainsMax (majorScoresOf alt01) i ∧
      attainsMax (majorScoresOf alt01) j) ∧
    (∃ i j, i ≠ j ∧ attainsMax (minorScoresOf alt01) i ∧
      attainsMax (minorScoresOf alt01) j) ∧
    isFirstMax (majorScoresOf alt01) (majorWinnerOf alt01) ∧
    isFirstMax (minorScoresOf alt01) (minorWinnerOf alt01) := by
  have hM : ∃ i j, i ≠ j ∧ attainsMax (majorScoresOf alt01) i ∧
      attainsMax (majorScoresOf alt01) j :=
    ⟨0, 2, by norm_num, major_alt01_attains0, major_alt01_attains2⟩
  have hm : ∃ i j, i ≠ j ∧ attainsMax (minorScoresOf alt01) i ∧
      attainsMax (minorScoresOf alt01) j :=
    ⟨0, 2, by norm_num, minor_alt01_attains0, minor_alt01_attains2⟩
  obtain ⟨h1, h2⟩ := winners_first_occurrence alt01 hM hm
  exact ⟨hM, hm, h1, h2⟩

theorem NOTE_len : NOTE_NAMES.length = 12 := by
  simp [NOTE_NAMES]

/-- Shared evaluation lemma for lines 88-96: once both note lookups
succeed, the result is the three-way comparison of the best scores. -/
theorem key_branch_eval (dist : List ℝ) (h12 : dist.length = 12)
    (a b : String)
    (ha : NOTE_NAMES[majorWinnerOf dist]? = some a)
    (hb : NOTE_NAMES[minorWinnerOf dist]? = some b) :
    get_estimated_song_key dist = Except.ok
      (if (majorScoresOf dist).getD (majorWinnerOf dist) 0 >
          (minorScoresOf dist).getD (minorWinnerOf dist) 0 then a ++ " major"
        else if (majorScoresOf dist).getD (majorWinnerOf dist) 0 <
          (minorScoresOf dist).getD (minorWinnerOf dist) 0 then b ++ " minor"
        else a ++ " major or " ++ b ++ " minor") := by
  unfold majorWinnerOf at ha
  unfold minorWinnerOf at hb
  unfold majorWinnerOf minorWinnerOf
  unfold get_estimated_song_key
  rw [if_pos h12]
  dsimp only
  rw [ha, hb]
  split_ifs <;> rfl

/-- Claim C1: on every length-12 distribution the key estimator resolves
the final label by a three-way comparison of the best major score
against the best minor score: strictly greater gives the major label of
the major winner, strictly less the minor label of the minor winner, and
exact equality the dual label naming both winners. -/
theorem key_three_way_branch (dist : List ℝ) (h12 : dist.length = 12)
    (a b : String)
    (ha : NOTE_NAMES[majorWinnerOf dist]? = some a)
    (hb : NOTE_NAMES[minorWinnerOf dist]? = some b) :
    get_estimated_song_key dist = Except.ok
      (if (majorScoresOf dist).getD (majorWinnerOf dist) 0 >
          (minorScoresOf dist).getD (minorWinnerOf dist) 0 then a ++ " major"
        else if (majorScoresOf dist).getD (majorWinnerOf dist) 0 <
          (minorScoresOf dist).getD (minorWinnerOf dist) 0 then b ++ " minor"
        else a ++ " major or " ++ b ++ " minor") :=
  key_branch_eval dist h12 a b ha hb

/-- Witness for `key_three_way_branch` at the input `alt01`, where both
winners are pitch class 0 (note name "C"). -/
theorem key_three_way_branch_witness :
    alt01.length = 12 ∧
    NOTE_NAMES[majorWinnerOf alt01]? = some "C" ∧
    NOTE_NAMES[minorWinnerOf alt01]? = some "C" ∧
    get_estimated_song_key alt01 = Except.ok
      (if (majorScoresOf alt01).getD (majorWinnerOf alt01) 0 >
          (minorScoresOf alt01).getD (minorWinnerOf alt01) 0 then "C" ++ " major"
        else if (majorScoresOf alt01).getD (majorWinnerOf alt01) 0 <
          (minorScoresOf alt01).getD (minorWinnerOf alt01) 0 then "C" ++ " minor"
        else "C" ++ " major or " ++ "C" ++ " minor") := by
  have ha : NOTE_NAMES[majorWinnerOf alt01]? = some "C" := by
    rw [majorWinner_alt01]
    rfl
  have hb : NOTE_NAMES[minorWinnerOf alt01]? = some "C" := by
    rw [minorWinner_alt01]
    rfl
  exact ⟨alt01_len, ha, hb, key_three_way_branch alt01 alt01_len "C" "C" ha hb⟩

/-- Claim C10: on every length-12 distribution with nonzero variance the
winners are pitch classes in `[0, 11]`, both `NOTE_NAMES` lookups are in
bounds, and the returned label is well-formed: the major label of the
major winner, the minor label of the minor winner, or the dual label
naming both. -/
theorem key_result_wellformed (dist : List ℝ) (h12 : dist.length = 12)
    (hv : popVariance dist ≠ 0) :
    majorWinnerOf dist < 12 ∧ minorWinnerOf dist < 12 ∧
    ∃ a b, NOTE_NAMES[majorWinnerOf dist]? = some a ∧
      NOTE_NAMES[minorWinnerOf dist]? = some b ∧
      (get_estimated_song_key dist = Except.ok (a ++ " major") ∨
        get_estimated_song_key dist = Except.ok (b ++ " minor") ∨
        get_estimated_song_key dist =
          Except.ok (a ++ " major or " ++ b ++ " minor")) := by
  have hMlt : majorWinnerOf dist < 12 := by
    have h := (argmax_isFirstMax (majorScoresOf dist) (majorScoresOf_ne_nil dist)).1.1
    rw [majorScoresOf_length] at h
    exact h
  have hmlt : minorWinnerOf dist < 12 := by
    have h := (argmax_isFirstMax (minorScoresOf dist) (minorScoresOf_ne_nil dist)).1.1
    rw [minorScoresOf_length] at h
    exact h
  obtain ⟨a, ha⟩ : ∃ a, NOTE_NAMES[majorWinnerOf dist]? = some a := by
    rw [List.getElem?_eq_getElem (by rw [NOTE_len]; exact hMlt)]
    exact ⟨_, rfl⟩
  obtain ⟨b, hb⟩ : ∃ b, NOTE_NAMES[minorWinnerOf dist]? = some b := by
    rw [List.getElem?_eq_getElem (by rw [NOTE_len]; exact hmlt)]
    exact ⟨_, rfl⟩
  refine ⟨hMlt, hmlt, a, b, ha, hb, ?_⟩
  have hkey := key_branch_eval dist h12 a b ha hb
  rw [hkey]
  rcases lt_trichotomy ((majorScoresOf dist).getD (majorWinnerOf dist) 0)
      ((minorScoresOf dist).getD (minorWinnerOf dist) 0) with hc | hc | hc
  · right; left
    rw [if_neg (by exact not_lt_of_gt hc), if_pos hc]
  · right; right
    rw [if_neg (by rw [hc]; exact lt_irrefl _), if_neg (by rw [hc]; exact lt_irrefl _)]
  · left
    rw [if_pos hc]

/-- Witness for `key_result_wellformed` at the distribution
`MAJOR_PROFILE` (length 12, nonzero variance). -/
theorem key_result_wellformed_witness :
    MAJOR_PROFILE.length = 12 ∧ popVariance MAJOR_PROFILE ≠ 0 ∧
    (majorWinnerOf MAJOR_PROFILE < 12 ∧ minorWinnerOf MAJOR_PROFILE < 12 ∧
      ∃ a b, NOTE_NAMES[majorWinnerOf MAJOR_PROFILE]? = some a ∧
        NOTE_NAMES[minorWinnerOf MAJOR_PROFILE]? = some b ∧
        (get_estimated_song_key MAJOR_PROFILE = Except.ok (a ++ " major") ∨
          get_estimated_song_key MAJOR_PROFILE = Except.ok (b ++ " minor") ∨
          get_estimated_song_key MAJOR_PROFILE =
            Except.ok (a ++ " major or " ++ b ++ " minor"))) :=
  ⟨MAJOR_len, ne_of_gt popVariance_MAJOR_pos,
    key_result_wellformed MAJOR_PROFILE MAJOR_len (ne_of_gt popVariance_MAJOR_pos)⟩

end GetFeatures

end
